import Mathlib

/-!
Shallow embedding of the `cats` command-line registry (src/cmds.rs, src/args.rs):
the dynamic query builders for `find`, `update` and `get`, the age-term parser,
and a model of the storage engine's (SQLite's) documented behavior on the
statement shapes the builders emit.
-/

namespace Cats

/-- A value pushed onto the positional parameter list of a prepared statement.
The Rust code pushes either owned `String`s (name/breed patterns) or `u32`
ages / `u64` ids; machine integers are embedded as `Nat` (all values involved
are nonnegative and no arithmetic is performed on them by the builder). -/
inductive SqlValue
  | vStr (s : String)
  | vNat (n : Nat)
  deriving DecidableEq, Repr

/-- The age filter value, from `args.rs`: `enum Age { Range(RangeInclusive<u32>),
Concrete(u32) }`. `Range lo hi` embeds `Range(lo..=hi)` via its `start` and
`end` bounds. -/
inductive Age
  | Range (lo hi : Nat)
  | Concrete (n : Nat)
  deriving DecidableEq, Repr

/-- The filter specification for `find`, from `args.rs` (`struct CmdFind`). -/
structure CmdFind where
  name : Option (List String)
  age : Option (List Age)
  breed : Option (List String)
  no_breed : Bool
  fuzzy : Bool
  deriving DecidableEq, Repr

/-- The update specification, from `args.rs` (`struct CmdUpdate`). -/
structure CmdUpdate where
  id : Nat
  name : Option String
  age : Option Nat
  breed : Option String
  deriving DecidableEq, Repr

/-- Wildcard wrapping applied by `find` in exact (non-fuzzy) mode:
`format!("%{}%", name)` in `cmds.rs`. -/
def wrapLike (s : String) : String := "%" ++ s ++ "%"

/-- The text of the name (resp. breed) clause of `find`, from `cmds.rs` lines
70-95: in fuzzy mode `col IN VALUES (?, ..., ?)` with one placeholder per
pattern, otherwise `(col LIKE ? OR ... OR col LIKE ?)`.  Only the length of
the pattern list is used, exactly as the source uses `names.len()`. -/
def textClause (col : String) (fuzzy : Bool) (patterns : List String) : String :=
  if fuzzy then
    col ++ " IN VALUES (" ++ String.intercalate ", " (List.replicate patterns.length "?") ++ ")"
  else
    "(" ++ String.intercalate " OR " (List.replicate patterns.length (col ++ " LIKE ?")) ++ ")"

/-- The parameters contributed by the name (resp. breed) patterns of `find`,
from `cmds.rs`: the patterns unmodified in fuzzy mode, wildcard-wrapped in
exact mode. -/
def textParams (fuzzy : Bool) (patterns : List String) : List String :=
  if fuzzy then patterns else patterns.map wrapLike

/-- The query-text fragment emitted for one age term (`cmds.rs` lines 101-113). -/
def ageFragment : Age → String
  | .Concrete _ => "age = ?"
  | .Range _ _ => "age BETWEEN ? AND ?"

/-- The parameters pushed for one age term (`cmds.rs` lines 101-113):
one value for `Concrete`, then `range.start()` before `range.end()` for `Range`. -/
def ageParams : Age → List SqlValue
  | .Concrete n => [SqlValue.vNat n]
  | .Range lo hi => [SqlValue.vNat lo, SqlValue.vNat hi]

/-- The age clause of `find` (`cmds.rs` lines 97-116): the per-term fragments
joined with `OR` inside one pair of parentheses. -/
def ageClause (ages : List Age) : String :=
  "(" ++ String.intercalate " OR " (ages.map ageFragment) ++ ")"

/-- The query text built by `find` (`cmds.rs` lines 66-126): the present
clauses, in the fixed order name, age, breed, breed-absence, joined with
`AND`; with no clause at all the unfiltered `SELECT` is used. -/
def findText (cmd : CmdFind) : String :=
  let clauses := String.intercalate " AND "
    (([cmd.name.map (textClause "name" cmd.fuzzy),
       cmd.age.map ageClause,
       cmd.breed.map (textClause "breed" cmd.fuzzy),
       if cmd.no_breed then some "breed ISNULL" else none]).filterMap id)
  if clauses = "" then "SELECT * FROM cats" else "SELECT * FROM cats WHERE " ++ clauses

/-- The positional parameter list built by `find` (`cmds.rs` lines 67-116).
The source first fills `params_owned` with the name patterns and then the
breed patterns, copies it into `params`, and only afterwards pushes the age
values, so the resulting order is name parameters, breed parameters, age
parameters. -/
def findParams (cmd : CmdFind) : List SqlValue :=
  (((cmd.name.map (textParams cmd.fuzzy)).getD []
      ++ (cmd.breed.map (textParams cmd.fuzzy)).getD []).map SqlValue.vStr)
    ++ (cmd.age.map (fun ages => (ages.map ageParams).flatten)).getD []

/-- The `(query_text, ordered_parameters)` pair built by `find`. -/
def findQuery (cmd : CmdFind) : String × List SqlValue :=
  (findText cmd, findParams cmd)

/-- The statement text built by `update` (`cmds.rs` lines 133-154): the
present assignments, in the fixed order name, age, breed, joined with commas
between `UPDATE cats SET ` and ` WHERE id = ? RETURNING *`. -/
def updateText (cmd : CmdUpdate) : String :=
  "UPDATE cats SET "
    ++ String.intercalate ", "
      (([cmd.name.map (fun _ => "name = ?"),
         cmd.age.map (fun _ => "age = ?"),
         cmd.breed.map (fun _ => "breed = ?")]).filterMap id)
    ++ " WHERE id = ? RETURNING *"

/-- The positional parameter list built by `update` (`cmds.rs` lines 135-155):
the present values in the order name, age, breed, then the id last. -/
def updateParams (cmd : CmdUpdate) : List SqlValue :=
  (cmd.name.map SqlValue.vStr).toList
    ++ (cmd.age.map SqlValue.vNat).toList
    ++ (cmd.breed.map SqlValue.vStr).toList
    ++ [SqlValue.vNat cmd.id]

/-- The `(query_text, ordered_parameters)` pair built by `update`. -/
def updateQuery (cmd : CmdUpdate) : String × List SqlValue :=
  (updateText cmd, updateParams cmd)

/-- The `(query_text, ordered_parameters)` pair built by `get` (`cmds.rs`
lines 57-64): `SELECT * FROM cats WHERE ` followed by `id = ?` tests joined
with `OR`, one per requested id. -/
def getQuery (ids : List Nat) : String × List SqlValue :=
  ("SELECT * FROM cats WHERE " ++ String.intercalate " OR " (ids.map (fun _ => "id = ?")),
   ids.map SqlValue.vNat)

/-- Largest value of the Rust `u32` type. -/
def u32Max : Nat := 4294967295

/-- Model of Rust's `str::parse::<u32>()` as used by `Age::from_str`
(`args.rs`): an optional leading `'+'`, then one or more ASCII digits, value
at most `u32::MAX`; anything else (including the empty string and a bare
`'+'`) is an error. -/
def parseU32 (s : List Char) : Option Nat :=
  let digits := match s with
    | '+' :: rest => rest
    | _ => s
  if digits = [] then none
  else if digits.all Char.isDigit then
    let n := digits.foldl (fun acc c => acc * 10 + (c.toNat - 48)) 0
    if n ≤ u32Max then some n else none
  else none

/-- Model of Rust's `str::find("-")` (`args.rs` line 123): the index of the
first `'-'` character.  The Rust value is a byte index and this one a
character index, but since `'-'` is a one-byte character the two slicings
`s[..divider]` / `s[divider + 1..]` cut the string at the same place. -/
def findChar (c : Char) : List Char → Option Nat
  | [] => none
  | d :: ds => if d = c then some 0 else (findChar c ds).map (· + 1)

/-- `Age::from_str` (`args.rs` lines 119-132): split at the first `'-'` and
parse both sides as `u32` giving a `Range`, or parse the whole string as a
`u32` giving a `Concrete`; any parse failure is propagated (`?`). -/
def ageFromStr (s : List Char) : Option Age :=
  match findChar '-' s with
  | some divider =>
    match parseU32 (s.take divider), parseU32 (s.drop (divider + 1)) with
    | some lower, some upper => some (Age.Range lower upper)
    | _, _ => none
  | none => (parseU32 s).map Age.Concrete

/-- The age-term grammar exactly as the spec describes it (section 4.2): an
input containing a `'-'` is split at the first `'-'` encountered — the part
before is the maximal dash-free prefix — and both sides are parsed as
non-negative integers giving a range with no ordering constraint; an input
without `'-'` is parsed whole as a non-negative integer; everything else
fails. -/
def specAgeParse (s : List Char) : Option Age :=
  if '-' ∈ s then
    match parseU32 (s.takeWhile (· ≠ '-')), parseU32 ((s.dropWhile (· ≠ '-')).tail) with
    | some lower, some upper => some (Age.Range lower upper)
    | _, _ => none
  else (parseU32 s).map Age.Concrete

/-!
Model of the storage engine.  The storage engine (SQLite, reached through
rusqlite) is outside this repository — the spec scopes it out and specifies it
"only by the interface it presents" — so the definitions below are modelled
from its documented behavior, restricted to the statement shapes the builders
above emit.
-/

/-- ASCII lower-casing.  Modelled from SQLite's documented `LIKE` operator,
which is case-insensitive for the 26 ASCII letters only. -/
def foldChar (c : Char) : Char :=
  if 'A' ≤ c ∧ c ≤ 'Z' then Char.ofNat (c.toNat + 32) else c

/-- Modelled from SQLite's documented `LIKE` operator: `'%'` in the pattern
matches any sequence of zero or more characters, `'_'` matches any single
character, and any other pattern character matches a single equal character,
ASCII-case-insensitively. -/
def likeMatch : List Char → List Char → Bool
  | [], s => s.isEmpty
  | c :: ps, s =>
    if c = '%' then
      (List.range (s.length + 1)).any fun i => likeMatch ps (s.drop i)
    else
      match s with
      | [] => false
      | d :: s' => (if c = '_' then true else foldChar c == foldChar d) && likeMatch ps s'

/-- `likeMatch` lifted to `String`: the result of the storage engine
evaluating `col LIKE ?` with pattern `p` against a stored text `s`. -/
def likeMatchS (p s : String) : Bool := likeMatch p.data s.data

/-- Whether `needle` is a case-insensitive prefix of `hay`. -/
def isPrefixCI : List Char → List Char → Bool
  | [], _ => true
  | _ :: _, [] => false
  | c :: cs, d :: ds => (foldChar c == foldChar d) && isPrefixCI cs ds

/-- Whether `needle` occurs in `hay` as a contiguous literal substring, up to
ASCII case.  This is the spec's notion of "contains-substring,
case-insensitive". -/
def isSubstringCI (needle hay : List Char) : Bool :=
  (List.range (hay.length + 1)).any fun i => isPrefixCI needle (hay.drop i)

/-- `isSubstringCI` lifted to `String`. -/
def isSubstringCIS (needle hay : String) : Bool := isSubstringCI needle.data hay.data

/-- A pattern character that is not one of the `LIKE` metacharacters. -/
def noWild (c : Char) : Bool := !(c == '%' || c == '_')

/-- Modelled from SQLite's documented `BETWEEN` operator as emitted for a
range age term: with the builder's parameter order (`range.start()` first,
`range.end()` second), `age BETWEEN ? AND ?` holds iff `lo ≤ age ∧ age ≤ hi`. -/
def sqlBetween (x lo hi : Nat) : Bool := decide (lo ≤ x) && decide (x ≤ hi)

/-- The storage engine's evaluation of the fragment `ageFragment a` with the
parameters `ageParams a` bound positionally, against a stored age `x`:
equality for `age = ?`, inclusive `BETWEEN` for `age BETWEEN ? AND ?`. -/
def ageTermMatches (a : Age) (x : Nat) : Bool :=
  match a with
  | .Concrete n => x == n
  | .Range lo hi => sqlBetween x lo hi

/-- The constructor tag of an age term: `true` for `Range`, `false` for
`Concrete`. -/
def ageTag : Age → Bool
  | .Range _ _ => true
  | .Concrete _ => false

/-- The shape of a filter specification: which fields are present, how many
patterns each text field holds, the tag of each age term, and the two flag
values — everything except the user-supplied text and numeric values. -/
def findShape (cmd : CmdFind) : Option Nat × Option (List Bool) × Option Nat × Bool × Bool :=
  (cmd.name.map List.length, cmd.age.map (List.map ageTag), cmd.breed.map List.length,
   cmd.no_breed, cmd.fuzzy)

/-- The shape of an update specification: which of the three optional fields
are present. -/
def updateShape (cmd : CmdUpdate) : Bool × Bool × Bool :=
  (cmd.name.isSome, cmd.age.isSome, cmd.breed.isSome)

/-- Whether `needle` occurs in `hay` as a contiguous run of characters. -/
def containsRun (needle hay : String) : Bool :=
  (List.range (hay.data.length + 1)).any fun i => needle.data.isPrefixOf (hay.data.drop i)

/-- Modelled from SQLite's documented grammar, restricted to the statement
shapes the builders above emit: preparation fails with a syntax error when a
`WHERE` keyword ends the statement with an empty condition ("incomplete
input"), when `UPDATE ... SET` is followed by an empty assignment list, or
when the right-hand side of an `IN` operator is the keyword `VALUES` instead
of a parenthesized expression list or sub-select (SQLite reports
`near "VALUES": ...` in that case).  On every other statement the builders
emit, preparation succeeds; no parameter value can re-introduce one of these
shapes, because parameter values never enter the statement text. -/
def sqlitePrepareRejects (stmt : String) : Bool :=
  "WHERE ".data.isSuffixOf stmt.data
    || containsRun "SET  WHERE" stmt
    || containsRun "IN VALUES" stmt

/-!
Theorems.
-/

/-- C1: For every Filter Specification, the parameter list produced by the
find query builder is ordered exactly as the clauses appear left-to-right in
the generated query text — all name parameters first, then all age parameters
(for Range, lo before hi), then all breed/absence parameters.  REFUTED by the
code: for the filter `age = [Concrete 3], breed = ["Tabby"]` the query text
places the age clause before the breed clause, but the parameter list places
the breed pattern before the age value, so positional binding associates the
age placeholder with `"%Tabby%"` and the breed placeholder with `3`. -/
theorem claim_C1_parameter_order :
    findQuery ⟨none, some [Age.Concrete 3], some ["Tabby"], false, false⟩ =
      ("SELECT * FROM cats WHERE (age = ?) AND (breed LIKE ?)",
       [SqlValue.vStr "%Tabby%", SqlValue.vNat 3]) := rfl

/-- C3: In fuzzy mode the name clause is supposed to match a record iff its
name equals one of the patterns case-insensitively.  REFUTED by the code: the
builder emits `name IN VALUES (?)`, which the storage engine rejects as a
syntax error while preparing the statement, so a fuzzy find with name
patterns never matches any record. -/
theorem claim_C3_fuzzy_emits_invalid_in_values :
    findQuery ⟨some ["Whiskers"], none, none, false, true⟩ =
      ("SELECT * FROM cats WHERE name IN VALUES (?)", [SqlValue.vStr "Whiskers"]) ∧
    sqlitePrepareRejects "SELECT * FROM cats WHERE name IN VALUES (?)" = true :=
  ⟨rfl, by decide⟩

/-- C4: `update` with zero provided fields is supposed to leave the record
unchanged, issue no write, and still return the current record.  REFUTED by
the code: the builder emits `UPDATE cats SET  WHERE id = ? RETURNING *` with
an empty assignment list, which the storage engine rejects as a syntax error,
so the call returns an error instead of the record. -/
theorem claim_C4_empty_update_is_error :
    updateQuery ⟨1, none, none, none⟩ =
      ("UPDATE cats SET  WHERE id = ? RETURNING *", [SqlValue.vNat 1]) ∧
    sqlitePrepareRejects "UPDATE cats SET  WHERE id = ? RETURNING *" = true :=
  ⟨rfl, by decide⟩

/-- C5: The query builder is supposed never to produce output on which
execution fails.  REFUTED by the code: the zero-field update specification
(legal per the spec) and any fuzzy find with patterns both yield statements
the storage engine rejects at preparation. -/
theorem claim_C5_builder_output_can_fail :
    sqlitePrepareRejects (updateQuery ⟨7, none, none, none⟩).1 = true ∧
    sqlitePrepareRejects (findQuery ⟨none, none, some ["Mau"], false, true⟩).1 = true :=
  ⟨by decide, by decide⟩

/-- C9: In exact mode the LIKE metacharacters are not escaped, so a pattern
containing `'%'` matches a record whose field does not contain the pattern as
a literal substring: the pattern `"a%b"` is bound as `"%a%b%"` and matches
the stored name `"aXb"`, which does not contain `"a%b"` literally. -/
theorem claim_C9_metacharacters_not_escaped :
    textParams false ["a%b"] = ["%a%b%"] ∧
    findQuery ⟨some ["a%b"], none, none, false, false⟩ =
      ("SELECT * FROM cats WHERE (name LIKE ?)", [SqlValue.vStr "%a%b%"]) ∧
    likeMatchS "%a%b%" "aXb" = true ∧
    isSubstringCIS "a%b" "aXb" = false :=
  ⟨rfl, rfl, by decide, by decide⟩

/-- C10: For the empty sequence of ids, `get` builds
`SELECT * FROM cats WHERE ` with no condition and no parameters, a statement
the storage engine rejects ("incomplete input"), so the operation returns an
error rather than an empty sequence of records. -/
theorem claim_C10_get_empty_ids :
    getQuery [] = ("SELECT * FROM cats WHERE ", []) ∧
    sqlitePrepareRejects (getQuery []).1 = true :=
  ⟨rfl, by decide⟩

/-- C7: A `Range lo hi` age term with `lo > hi` never matches any stored age
and is not an error (the built statement still prepares), and a `Concrete n`
term matches a stored age iff it equals `n` exactly; the builder binds `lo`
before `hi`. -/
theorem claim_C7_age_semantics :
    (∀ lo hi x : Nat, hi < lo → ageTermMatches (Age.Range lo hi) x = false) ∧
    (∀ n x : Nat, ageTermMatches (Age.Concrete n) x = true ↔ x = n) ∧
    (∀ lo hi : Nat,
      findQuery ⟨none, some [Age.Range lo hi], none, false, false⟩ =
        ("SELECT * FROM cats WHERE (age BETWEEN ? AND ?)", [SqlValue.vNat lo, SqlValue.vNat hi]) ∧
      sqlitePrepareRejects "SELECT * FROM cats WHERE (age BETWEEN ? AND ?)" = false) ∧
    (∀ n : Nat,
      findQuery ⟨none, some [Age.Concrete n], none, false, false⟩ =
        ("SELECT * FROM cats WHERE (age = ?)", [SqlValue.vNat n])) := by
  refine ⟨?_, ?_, ?_, ?_⟩
  · intro lo hi x h
    simp only [ageTermMatches, sqlBetween, Bool.and_eq_false_iff, decide_eq_false_iff_not]
    omega
  · intro n x
    simp [ageTermMatches]
  · intro lo hi
    exact ⟨rfl, by decide⟩
  · intro n
    rfl

/-- Witness for C7 at concrete inputs. -/
theorem claim_C7_witness :
    ageTermMatches (Age.Range 9 3) 5 = false ∧
    (ageTermMatches (Age.Concrete 4) 4 = true ↔ (4 : Nat) = 4) ∧
    (findQuery ⟨none, some [Age.Range 9 3], none, false, false⟩ =
        ("SELECT * FROM cats WHERE (age BETWEEN ? AND ?)", [SqlValue.vNat 9, SqlValue.vNat 3]) ∧
      sqlitePrepareRejects "SELECT * FROM cats WHERE (age BETWEEN ? AND ?)" = false) ∧
    findQuery ⟨none, some [Age.Concrete 4], none, false, false⟩ =
        ("SELECT * FROM cats WHERE (age = ?)", [SqlValue.vNat 4]) :=
  ⟨claim_C7_age_semantics.1 9 3 5 (by decide), claim_C7_age_semantics.2.1 4 4,
   claim_C7_age_semantics.2.2.1 9 3, claim_C7_age_semantics.2.2.2 4⟩

/-- If `findChar` finds no occurrence, the character is not in the list. -/
theorem findChar_none (c : Char) : ∀ (s : List Char), findChar c s = none → c ∉ s := by
  intro s
  induction s with
  | nil => intro _; simp
  | cons d ds ih =>
    intro h
    simp only [findChar] at h
    by_cases hd : d = c
    · rw [if_pos hd] at h
      exact absurd h (by simp)
    · rw [if_neg hd] at h
      have h' : findChar c ds = none := by
        cases hfc : findChar c ds with
        | none => rfl
        | some j => rw [hfc] at h; simp at h
      intro hmem
      rcases List.mem_cons.mp hmem with he | hm
      · exact hd he.symm
      · exact ih h' hm

/-- If `findChar` returns index `i`, then taking `i` characters is the maximal
`c`-free prefix, dropping `i + 1` characters is everything after the first
`c`, and `c` occurs in the list. -/
theorem findChar_some (c : Char) :
    ∀ (s : List Char) (i : Nat), findChar c s = some i →
      s.take i = s.takeWhile (fun d => d ≠ c) ∧
      s.drop (i + 1) = (s.dropWhile (fun d => d ≠ c)).tail ∧ c ∈ s := by
  intro s
  induction s with
  | nil => intro i h; simp [findChar] at h
  | cons d ds ih =>
    intro i h
    simp only [findChar] at h
    by_cases hd : d = c
    · rw [if_pos hd] at h
      have hi : i = 0 := by
        cases h
        rfl
      subst hi
      subst hd
      refine ⟨?_, ?_, by simp⟩
      · simp [List.takeWhile_cons]
      · simp [List.dropWhile_cons]
    · rw [if_neg hd] at h
      cases hfc : findChar c ds with
      | none => rw [hfc] at h; simp at h
      | some j =>
        rw [hfc] at h
        simp only [Option.map_some'] at h
        obtain ⟨e1, e2, e3⟩ := ih j hfc
        cases h
        refine ⟨?_, ?_, List.mem_cons_of_mem d e3⟩
        · simp [List.takeWhile_cons, hd, e1]
        · simpa [List.dropWhile_cons, hd] using e2

/-- The age-term parser of the code agrees with the spec's description. -/
theorem ageFromStr_eq_spec (s : List Char) : ageFromStr s = specAgeParse s := by
  rcases hf : findChar '-' s with _ | i
  · have hmem : ('-') ∉ s := findChar_none '-' s hf
    simp only [ageFromStr, specAgeParse, hf, if_neg hmem]
  · obtain ⟨e1, e2, e3⟩ := findChar_some '-' s i hf
    simp only [ageFromStr, specAgeParse, hf, if_pos e3, ← e1, ← e2]

/-- C8: Age-term parsing follows exactly the spec's grammar — an input is
split at the first `'-'` encountered with both sides parsed as non-negative
integers (no ordering constraint between the bounds), an input without `'-'`
is parsed whole as a non-negative integer, and every other input fails —
illustrated on reversed ranges, plain integers, and malformed inputs. -/
theorem claim_C8_age_parsing :
    (∀ s : List Char, ageFromStr s = specAgeParse s) ∧
    ageFromStr "9-3".data = some (Age.Range 9 3) ∧
    ageFromStr "30-7".data = some (Age.Range 30 7) ∧
    ageFromStr "12".data = some (Age.Concrete 12) ∧
    ageFromStr "+4".data = some (Age.Concrete 4) ∧
    ageFromStr "abc".data = none ∧
    ageFromStr "3.5".data = none ∧
    ageFromStr "5-".data = none ∧
    ageFromStr "-5".data = none ∧
    ageFromStr "1-2-3".data = none :=
  ⟨ageFromStr_eq_spec, by decide, by decide, by decide, by decide, by decide, by decide,
   by decide, by decide, by decide⟩

/-- The text clause depends on the patterns only through their number. -/
theorem textClause_congr (col : String) (fz : Bool) {ps qs : List String}
    (h : ps.length = qs.length) : textClause col fz ps = textClause col fz qs := by
  simp only [textClause, h]

/-- Lifting of `textClause_congr` to optional pattern lists. -/
theorem optTextClause_congr (col : String) (fz : Bool) :
    ∀ {o1 o2 : Option (List String)}, o1.map List.length = o2.map List.length →
      o1.map (textClause col fz) = o2.map (textClause col fz)
  | none, none, _ => rfl
  | none, some _, h => by simp at h
  | some _, none, h => by simp at h
  | some ps, some qs, h => by
    simp only [Option.map_some', Option.some.injEq] at h ⊢
    exact textClause_congr col fz h

/-- The age fragment depends on an age term only through its tag. -/
theorem ageFragment_congr : ∀ {a b : Age}, ageTag a = ageTag b → ageFragment a = ageFragment b := by
  intro a b h
  cases a <;> cases b <;> first | rfl | simp [ageTag] at h

/-- Pointwise lifting of `ageFragment_congr`. -/
theorem ageFragments_congr : ∀ (ps qs : List Age), ps.map ageTag = qs.map ageTag →
    ps.map ageFragment = qs.map ageFragment
  | [], [], _ => rfl
  | [], _ :: _, h => by simp at h
  | _ :: _, [], h => by simp at h
  | p :: ps, q :: qs, h => by
    simp only [List.map_cons, List.cons.injEq] at h ⊢
    exact ⟨ageFragment_congr h.1, ageFragments_congr ps qs h.2⟩

/-- The age clause depends on the age terms only through their tags. -/
theorem optAgeClause_congr :
    ∀ {o1 o2 : Option (List Age)}, o1.map (List.map ageTag) = o2.map (List.map ageTag) →
      o1.map ageClause = o2.map ageClause
  | none, none, _ => rfl
  | none, some _, h => by simp at h
  | some _, none, h => by simp at h
  | some ps, some qs, h => by
    simp only [Option.map_some', Option.some.injEq] at h ⊢
    simp only [ageClause, ageFragments_congr ps qs h]

/-- A constant-valued `Option.map` depends only on presence. -/
theorem optConst_congr {α : Type} (k : String) :
    ∀ {o1 o2 : Option α}, o1.isSome = o2.isSome → o1.map (fun _ => k) = o2.map (fun _ => k)
  | none, none, _ => rfl
  | none, some _, h => by simp at h
  | some _, none, h => by simp at h
  | some _, some _, _ => rfl

/-- C2: Two Filter Specifications (and two Update Specifications) with the
same shape — same present fields, same pattern/age-term counts, same
Concrete-vs-Range tags, same fuzzy and no-breed flags — produce identical
query text whatever the user-supplied text and numeric values are; hence no
parameter value ever appears in the query text. -/
theorem claim_C2_text_depends_only_on_shape :
    (∀ c1 c2 : CmdFind, findShape c1 = findShape c2 → (findQuery c1).1 = (findQuery c2).1) ∧
    (∀ u1 u2 : CmdUpdate, updateShape u1 = updateShape u2 →
      (updateQuery u1).1 = (updateQuery u2).1) := by
  constructor
  · intro c1 c2 h
    simp only [findShape, Prod.mk.injEq] at h
    obtain ⟨h1, h2, h3, h4, h5⟩ := h
    have e1 : c1.name.map (textClause "name" c1.fuzzy) = c2.name.map (textClause "name" c2.fuzzy) := by
      rw [h5]
      exact optTextClause_congr "name" c2.fuzzy h1
    have e2 : c1.age.map ageClause = c2.age.map ageClause := optAgeClause_congr h2
    have e3 : c1.breed.map (textClause "breed" c1.fuzzy) =
        c2.breed.map (textClause "breed" c2.fuzzy) := by
      rw [h5]
      exact optTextClause_congr "breed" c2.fuzzy h3
    show findText c1 = findText c2
    simp only [findText, e1, e2, e3, h4]
  · intro u1 u2 h
    simp only [updateShape, Prod.mk.injEq] at h
    obtain ⟨h1, h2, h3⟩ := h
    show updateText u1 = updateText u2
    simp only [updateText, optConst_congr _ h1, optConst_congr _ h2, optConst_congr _ h3]

/-- Witness for C2: two shape-equal filters (and updates) with entirely
different values yield identical query text. -/
theorem claim_C2_witness :
    (findQuery ⟨some ["Whiskers"], some [Age.Range 1 5], none, false, false⟩).1 =
      (findQuery ⟨some ["Zanzibar the Unpronounceable"], some [Age.Range 200 7], none, false, false⟩).1 ∧
    (updateQuery ⟨1, some "Alice", none, some "Tabby"⟩).1 =
      (updateQuery ⟨99, some "Zelda", none, some "Mau"⟩).1 :=
  ⟨claim_C2_text_depends_only_on_shape.1 _ _ rfl,
   claim_C2_text_depends_only_on_shape.2 _ _ rfl⟩

/-- Appending strings concatenates their character data. -/
theorem string_data_append (a b : String) : (a ++ b).data = a.data ++ b.data := by
  cases a; cases b; rfl

/-- The character data of a wildcard-wrapped pattern. -/
theorem wrapLike_data (p : String) : (wrapLike p).data = '%' :: (p.data ++ ['%']) := by
  have h1 : ("%" : String).data = ['%'] := rfl
  simp [wrapLike, string_data_append, h1]

/-- A parenthesized clause is never the empty string. -/
theorem paren_ne_empty (mid : String) : ("(" ++ mid ++ ")" : String) ≠ "" := by
  intro h
  have h2 := congrArg String.data h
  have h3 : ("(" : String).data = ['('] := rfl
  have h4 : ("" : String).data = ([] : List Char) := rfl
  rw [string_data_append, string_data_append, h3, h4] at h2
  simp at h2

/-- A leading `'%'` in a `LIKE` pattern matches an arbitrary dropped prefix. -/
theorem likeMatch_percent (ps s : List Char) :
    likeMatch ('%' :: ps) s = (List.range (s.length + 1)).any fun i => likeMatch ps (s.drop i) := by
  simp [likeMatch]

/-- A metacharacter-free pattern followed by `'%'` matches exactly the texts
it prefixes case-insensitively. -/
theorem likeMatch_clean_append_percent :
    ∀ (p : List Char), p.all noWild = true → ∀ (t : List Char),
      likeMatch (p ++ ['%']) t = isPrefixCI p t
  | [], _, t => by
    have h : likeMatch ['%'] t = true := by
      rw [likeMatch_percent]
      refine List.any_eq_true.mpr ⟨t.length, List.mem_range.mpr (Nat.lt_succ_self _), ?_⟩
      simp [likeMatch, List.drop_length]
    simpa [isPrefixCI] using h
  | c :: cs, hall, t => by
    have hcs : cs.all noWild = true := by
      simp only [List.all_cons, Bool.and_eq_true] at hall
      exact hall.2
    have hc : ¬(c = '%') ∧ ¬(c = '_') := by
      simp only [List.all_cons, Bool.and_eq_true] at hall
      have := hall.1
      simp [noWild] at this
      exact this
    cases t with
    | nil => simp [likeMatch, isPrefixCI, hc.1]
    | cons d t' =>
      simp only [List.cons_append, likeMatch, isPrefixCI, if_neg hc.1, if_neg hc.2,
        List.append_eq]
      rw [likeMatch_clean_append_percent cs hcs t']

/-- For a metacharacter-free pattern `p`, the `LIKE` pattern `%p%` matches a
text exactly when `p` occurs in it as a case-insensitive substring. -/
theorem likeMatch_wrap (p : List Char) (hp : p.all noWild = true) (s : List Char) :
    likeMatch ('%' :: (p ++ ['%'])) s = isSubstringCI p s := by
  rw [likeMatch_percent, isSubstringCI]
  congr 1
  funext i
  exact likeMatch_clean_append_percent p hp (s.drop i)

/-- The full query built by `find` for a name-patterns-only filter in exact
mode: one parenthesized OR group of `name LIKE ?` tests and the
wildcard-wrapped patterns as parameters, in order. -/
theorem findQuery_name_only (ps : List String) :
    findQuery ⟨some ps, none, none, false, false⟩ =
      ("SELECT * FROM cats WHERE "
          ++ ("(" ++ String.intercalate " OR " (List.replicate ps.length "name LIKE ?") ++ ")"),
       ps.map (fun p => SqlValue.vStr (wrapLike p))) := by
  have h1 : ("name" : String) ++ " LIKE ?" = "name LIKE ?" := rfl
  have h3 : ∀ x : String, String.intercalate " AND " [x] = x := fun _ => rfl
  simp only [findQuery, findText, findParams, textClause, textParams, Option.map_some',
    Option.map_none', Option.getD_some, Option.getD_none, List.filterMap_cons, List.filterMap_nil,
    Bool.false_eq_true, if_false, ite_false, h1, h3, List.append_nil, List.nil_append,
    List.map_map, Prod.mk.injEq, id_eq]
  constructor
  · rw [if_neg (paren_ne_empty _)]
  · rfl

/-- The analogue of `findQuery_name_only` for a breed-patterns-only filter. -/
theorem findQuery_breed_only (ps : List String) :
    findQuery ⟨none, none, some ps, false, false⟩ =
      ("SELECT * FROM cats WHERE "
          ++ ("(" ++ String.intercalate " OR " (List.replicate ps.length "breed LIKE ?") ++ ")"),
       ps.map (fun p => SqlValue.vStr (wrapLike p))) := by
  have h1 : ("breed" : String) ++ " LIKE ?" = "breed LIKE ?" := rfl
  have h3 : ∀ x : String, String.intercalate " AND " [x] = x := fun _ => rfl
  simp only [findQuery, findText, findParams, textClause, textParams, Option.map_some',
    Option.map_none', Option.getD_some, Option.getD_none, List.filterMap_cons, List.filterMap_nil,
    Bool.false_eq_true, if_false, ite_false, h1, h3, List.append_nil, List.nil_append,
    List.map_map, Prod.mk.injEq, id_eq]
  constructor
  · rw [if_neg (paren_ne_empty _)]
  · rfl

/-- C6: In exact (default) mode, a non-empty sequence of name (or breed)
patterns produces one parenthesized clause that is an OR-disjunction of one
`LIKE` test per pattern; each pattern is bound as a parameter wrapped with
wildcard markers on both sides and not otherwise transformed; and for
patterns free of `LIKE` metacharacters the bound `%p%` pattern matches a
stored text exactly when `p` occurs in it as a case-insensitive substring. -/
theorem claim_C6_exact_mode_clause :
    (∀ ps : List String, ps ≠ [] →
      findQuery ⟨some ps, none, none, false, false⟩ =
        ("SELECT * FROM cats WHERE "
            ++ ("(" ++ String.intercalate " OR " (List.replicate ps.length "name LIKE ?") ++ ")"),
         ps.map (fun p => SqlValue.vStr (wrapLike p))) ∧
      findQuery ⟨none, none, some ps, false, false⟩ =
        ("SELECT * FROM cats WHERE "
            ++ ("(" ++ String.intercalate " OR " (List.replicate ps.length "breed LIKE ?") ++ ")"),
         ps.map (fun p => SqlValue.vStr (wrapLike p)))) ∧
    (∀ p s : String, p.data.all noWild = true →
      likeMatchS (wrapLike p) s = isSubstringCIS p s) := by
  constructor
  · intro ps _
    exact ⟨findQuery_name_only ps, findQuery_breed_only ps⟩
  · intro p s hp
    simp only [likeMatchS, isSubstringCIS, wrapLike_data]
    exact likeMatch_wrap p.data hp s.data

/-- Witness for C6 at concrete inputs. -/
theorem claim_C6_witness :
    (findQuery ⟨some ["Tab"], none, none, false, false⟩ =
        ("SELECT * FROM cats WHERE "
            ++ ("(" ++ String.intercalate " OR "
                  (List.replicate (["Tab"] : List String).length "name LIKE ?") ++ ")"),
         (["Tab"] : List String).map (fun p => SqlValue.vStr (wrapLike p))) ∧
      findQuery ⟨none, none, some ["Tab"], false, false⟩ =
        ("SELECT * FROM cats WHERE "
            ++ ("(" ++ String.intercalate " OR "
                  (List.replicate (["Tab"] : List String).length "breed LIKE ?") ++ ")"),
         (["Tab"] : List String).map (fun p => SqlValue.vStr (wrapLike p)))) ∧
    likeMatchS (wrapLike "isk") "WhISKers" = isSubstringCIS "isk" "WhISKers" :=
  ⟨claim_C6_exact_mode_clause.1 ["Tab"] (by decide),
   claim_C6_exact_mode_clause.2 "isk" "WhISKers" (by decide)⟩

end Cats
